import Mathlib

/-!
Shallow embedding of the relationship-graph-to-Mermaid compiler of this
repository: `build_mermaid_from_structured` (and its helpers `INVALID_NODES`,
`safe_id`, the group-name sanitizer and the focus-highlighting pass) from
`zikken_11month_v7.py`, and the CSV-driven variant `build_mermaid_from_csv`
from `model_comparison_test.py` / `benchmark.py`.

Modelling conventions:
- Python `str` is Lean `String`; slicing `s[:5]` is `String.take 5` (both act
  on code points).
- Python's per-process builtin `hash` on strings is modelled as an arbitrary
  fixed function `pyhash : String → Int`, passed as a parameter.
- Python `set`/`dict` are modelled as insertion-ordered duplicate-free lists;
  the code only depends on *some* fixed iteration order, which the model
  fixes to insertion order.
- Fallible operations (the `row[0]` subscript of the CSV builder) return
  `Except String _`.
-/

namespace ZikkenV7

/-- The whitespace set of Python `str.strip` / `str.isspace` and of the
regex class `\s` in Unicode mode. -/
def pyIsSpace (c : Char) : Bool :=
  let n := c.toNat
  (0x09 ≤ n && n ≤ 0x0D) || n == 0x20 || (0x1C ≤ n && n ≤ 0x1F) || n == 0x85 ||
  n == 0xA0 || n == 0x1680 || (0x2000 ≤ n && n ≤ 0x200A) || n == 0x2028 ||
  n == 0x2029 || n == 0x202F || n == 0x205F || n == 0x3000

/-- Python `str.strip()`: remove leading and trailing whitespace. -/
def pyStrip (s : String) : String :=
  (((s.data.dropWhile pyIsSpace).reverse.dropWhile pyIsSpace).reverse).asString

/-- Python substring test `needle in haystack`, on the exploded character
list: the needle is a prefix of some suffix. -/
def lstInfix (needle : List Char) : List Char → Bool
  | [] => needle.isEmpty
  | c :: rest => needle.isPrefixOf (c :: rest) || lstInfix needle rest

/-- Python `needle in haystack` on strings (substring containment). -/
def pyIn (needle haystack : String) : Bool :=
  lstInfix needle.data haystack.data

/-- `INVALID_NODES` of `zikken_11month_v7.py` (identical set in
`model_comparison_test.py`): placeholder entity names to filter out. -/
def INVALID_NODES : List String :=
  ["不明", "主体", "客体", "グループ", "関係タイプ", "関係詳細",
   "?", "？", "None", "none", "null", "NULL", ""]

/-- One relationship record (`Relationship` pydantic model):
`relation_type` is one of "directed", "bidirectional", "dotted". -/
structure Relationship where
  source : String
  target : String
  relation_type : String
  label : String
  group : String := ""
  deriving Repr, DecidableEq

/-- `CharacterGraph`: the structured input of the compiler. -/
structure CharacterGraph where
  center_persons : List String
  relationships : List Relationship
  deriving Repr, DecidableEq

/-- An entry of the `edges` list built by the compiler. -/
structure Edge where
  src : String
  dst : String
  symbol : String
  label : String
  deriving Repr, DecidableEq

/-- The mutable collections of the collection loop of
`build_mermaid_from_structured`: `nodes` (a Python set, modelled in
insertion order), `edges`, `groups` (dict of sets, insertion-ordered) and
`edge_map` (its key list). -/
structure BuildState where
  nodes : List String
  edges : List Edge
  groups : List (String × List String)
  edge_map : List (String × String)
  deriving Repr, DecidableEq

/-- The empty initial state. -/
def initState : BuildState := ⟨[], [], [], []⟩

/-- Python `set.add` on the insertion-ordered list model. -/
def addNode (ns : List String) (n : String) : List String :=
  if ns.contains n then ns else ns ++ [n]

/-- `groups[group].add(src); groups[group].add(dst)` with creation of the
entry when absent. -/
def addToGroup (gs : List (String × List String)) (g src dst : String) :
    List (String × List String) :=
  if gs.any (fun p => p.1 == g) then
    gs.map (fun p => if p.1 == g then (p.1, addNode (addNode p.2 src) dst) else p)
  else
    gs ++ [(g, addNode (addNode [] src) dst)]

/-- The first filter of the loop: `rel.source in INVALID_NODES or rel.target
in INVALID_NODES` (exact membership, no trimming). -/
def invalid_filtered (r : Relationship) : Bool :=
  INVALID_NODES.contains r.source || INVALID_NODES.contains r.target

/-- The second filter: `not rel.source or not rel.target or not
rel.source.strip() or not rel.target.strip()`. -/
def empty_filtered (r : Relationship) : Bool :=
  r.source == "" || r.target == "" || pyStrip r.source == "" || pyStrip r.target == ""

/-- Arrow selection of `build_mermaid_from_structured`: default `-->`,
`<-->` for "bidirectional", `-.->` for "dotted". -/
def edge_symbol (t : String) : String :=
  if t == "bidirectional" then "<-->"
  else if t == "dotted" then "-.->"
  else "-->"

/-- One iteration of the collection loop of `build_mermaid_from_structured`:
filter invalid and empty names, drop already-seen ordered pairs, otherwise
register nodes, group memberships and the edge (label truncated to 5). -/
def processRel (st : BuildState) (r : Relationship) : BuildState :=
  if invalid_filtered r then st
  else if empty_filtered r then st
  else if st.edge_map.contains (r.source, r.target) then st
  else
    { nodes := addNode (addNode st.nodes r.source) r.target
      edges := st.edges ++ [⟨r.source, r.target, edge_symbol r.relation_type, r.label.take 5⟩]
      groups := if r.group == "" then st.groups
                else addToGroup st.groups r.group r.source r.target
      edge_map := st.edge_map ++ [(r.source, r.target)] }

/-- The whole collection loop over `graph.relationships`. -/
def processAll (rels : List Relationship) : BuildState :=
  rels.foldl processRel initState

/-- `safe_id`: `f'id_{abs(hash(name)) % 10000}'`, with the per-process
builtin string hash supplied as `pyhash`. -/
def safe_id (pyhash : String → Int) (name : String) : String :=
  "id_" ++ toString ((pyhash name).natAbs % 10000)

/-- The character class kept by the group-name sanitizer regex
`[^0-9A-Za-z_぀-ゟ゠-ヾ一-鿿\s]` of
`build_mermaid_from_structured`. -/
def group_allowed (c : Char) : Bool :=
  let n := c.toNat
  (0x30 ≤ n && n ≤ 0x39) || (0x41 ≤ n && n ≤ 0x5A) || (0x61 ≤ n && n ≤ 0x7A) ||
  c == '_' || (0x3040 ≤ n && n ≤ 0x309F) || (0x30A0 ≤ n && n ≤ 0x30FE) ||
  (0x4E00 ≤ n && n ≤ 0x9FFF) || pyIsSpace c

/-- The group-name sanitizer of `build_mermaid_from_structured`: first
`group_name.replace('・', '')`, then removal of every character outside the
regex allow-list, then the fallback literal "group" when the result is
empty or whitespace-only. -/
def sanitize_group_name (g : String) : String :=
  let s1 := (g.data.filter (fun c => c != '・')).asString
  let s2 := (s1.data.filter group_allowed).asString
  if pyStrip s2 == "" then "group" else s2

/-- Python's `sorted` on strings: lexicographic by code point. Mathlib's
`String` linear order coincides with that order. -/
def pySorted (l : List String) : List String :=
  List.insertionSort (· ≤ ·) l

/-- A node declaration line: `    {node_id}["{name}"]`. -/
def nodeLine (pyhash : String → Int) (name : String) : String :=
  "    " ++ safe_id pyhash name ++ "[\"" ++ name ++ "\"]"

/-- One subgraph block: header with the sanitized group name, then the
sorted members that are registered nodes, then the closing marker. -/
def groupBlock (pyhash : String → Int) (nodes : List String)
    (p : String × List String) : List String :=
  ("    subgraph " ++ sanitize_group_name p.1) ::
    (pySorted p.2).filterMap (fun n =>
      if nodes.contains n then some ("        " ++ safe_id pyhash n) else none)
  ++ ["    end"]

/-- One edge line, mirroring the guards of the serialization loop (empty
names, unregistered endpoints and empty ids are skipped — all vacuous for
states built by `processAll`). -/
def edgeLineOf (pyhash : String → Int) (nodes : List String) (e : Edge) :
    Option String :=
  if e.src == "" || e.dst == "" then none
  else if !(nodes.contains e.src) || !(nodes.contains e.dst) then none
  else if safe_id pyhash e.src == "" || safe_id pyhash e.dst == "" then none
  else if e.label != "" then
    some ("    " ++ safe_id pyhash e.src ++ " " ++ e.symbol ++ "|" ++ e.label
      ++ "| " ++ safe_id pyhash e.dst)
  else
    some ("    " ++ safe_id pyhash e.src ++ " " ++ e.symbol ++ " "
      ++ safe_id pyhash e.dst)

/-- A highlight directive: `    style {id} fill:...`. -/
def style_line (nodeId : String) : String :=
  "    style " ++ nodeId ++ " fill:#FFD700,stroke:#FF8C00,stroke-width:4px"

/-- The fuzzy-match inner loop of the highlighting pass: scan the node map
in iteration order; at the first name related to `cp` by bidirectional
substring containment, emit a style line unless that node id is already
highlighted, then break. -/
def fuzzyScan (pyhash : String → Int) (cp : String) (hl : List String) :
    List String → List String × List String
  | [] => ([], hl)
  | n :: rest =>
    if pyIn cp n || pyIn n cp then
      if hl.contains (safe_id pyhash n) then ([], hl)
      else ([style_line (safe_id pyhash n)], hl ++ [safe_id pyhash n])
    else fuzzyScan pyhash cp hl rest

/-- Processing of one focus name: exact key lookup first, fuzzy scan
otherwise; `acc` carries the emitted lines and the `highlighted_nodes`
set (as an insertion-ordered id list). -/
def focusStep (pyhash : String → Int) (nodesOrder : List String)
    (acc : List String × List String) (cp : String) : List String × List String :=
  if nodesOrder.contains cp then
    if acc.2.contains (safe_id pyhash cp) then acc
    else (acc.1 ++ [style_line (safe_id pyhash cp)], acc.2 ++ [safe_id pyhash cp])
  else
    let r := fuzzyScan pyhash cp acc.2 nodesOrder
    (acc.1 ++ r.1, r.2)

/-- The style lines emitted by the highlighting pass for the focus names
`cps`, given the node map in iteration order `nodesOrder`. -/
def highlightLines (pyhash : String → Int) (nodesOrder : List String)
    (cps : List String) : List String :=
  (cps.foldl (focusStep pyhash nodesOrder) ([], [])).1

/-- The `highlighted_nodes` id list after the highlighting pass. -/
def highlightIds (pyhash : String → Int) (nodesOrder : List String)
    (cps : List String) : List String :=
  (cps.foldl (focusStep pyhash nodesOrder) ([], [])).2

/-- Removal of the trailing run of empty lines before the final join. -/
def stripTrailingEmpty (l : List String) : List String :=
  (l.reverse.dropWhile (· == "")).reverse

/-- `build_mermaid_from_structured`: the full compiler, from collection
loop to serialized text. -/
def build_mermaid_from_structured (pyhash : String → Int)
    (g : CharacterGraph) : String :=
  let st := processAll g.relationships
  let lines :=
    ["graph LR"]
    ++ (pySorted st.nodes).map (nodeLine pyhash)
    ++ (if st.groups.isEmpty then []
        else "" :: st.groups.foldl (fun acc p => acc ++ groupBlock pyhash st.nodes p) [])
    ++ "" :: st.edges.filterMap (edgeLineOf pyhash st.nodes)
    ++ (if g.center_persons.isEmpty then []
        else "" :: highlightLines pyhash st.nodes g.center_persons)
  String.intercalate "\n" (stripTrailingEmpty lines)

end ZikkenV7

namespace ModelComparisonCsv

open ZikkenV7

/-- The line terminators recognized by Python `str.splitlines`. -/
def isLineBreak (c : Char) : Bool :=
  let n := c.toNat
  n == 0x0A || n == 0x0D || n == 0x0B || n == 0x0C || n == 0x1C || n == 0x1D ||
  n == 0x1E || n == 0x85 || n == 0x2028 || n == 0x2029

/-- Worker for `pySplitlines`: a terminator flushes the current line
(`\r\n` counts as one terminator); a final unterminated line is kept,
and empty input yields no lines. -/
def splitlinesAux : List Char → List Char → List (List Char)
  | cur, [] => if cur.isEmpty then [] else [cur]
  | cur, '\r' :: '\n' :: rest => cur :: splitlinesAux [] rest
  | cur, c :: rest =>
    if isLineBreak c then cur :: splitlinesAux [] rest
    else splitlinesAux (cur ++ [c]) rest

/-- Python `str.splitlines()`. -/
def pySplitlines (s : String) : List String :=
  (splitlinesAux [] s.data).map List.asString

/-- Comma field splitting: `"a,b"` gives the fields `["a", "b"]`. -/
def splitCommaAux : List Char → List Char → List String
  | cur, [] => [cur.asString]
  | cur, ',' :: rest => cur.asString :: splitCommaAux [] rest
  | cur, c :: rest => splitCommaAux (cur ++ [c]) rest

/-- One `csv.reader` row from one line, for input without quote
characters (the compiler's inputs are LLM-emitted unquoted rows): a blank
line yields the empty row, any other line splits on commas. -/
def csvRow (line : String) : List String :=
  if line == "" then [] else splitCommaAux [] line.data

/-- Python `str.lower()` on the ASCII letters that the synonym tables
compare against (multi-byte synonym entries contain no cased letters). -/
def pyLower (s : String) : String :=
  (s.data.map Char.toLower).asString

/-- `rel_type.lower()` synonym mapping of `build_mermaid_from_csv`:
"bidirectional"/"双方向" and "dotted"/"点線", default directed. -/
def csv_edge_symbol (t : String) : String :=
  let tl := pyLower t
  if tl == "bidirectional" || tl == "双方向" then "<-->"
  else if tl == "dotted" || tl == "点線" then "-.->"
  else "-->"

/-- One non-header iteration of the collection loop of
`build_mermaid_from_csv` in `model_comparison_test.py`: skip rows with
fewer than 4 fields, strip the fields, filter placeholder and empty names,
drop duplicate ordered pairs, otherwise record nodes, groups and the edge
(stripped label truncated to 5). -/
def csvStep (st : BuildState) (row : List String) : BuildState :=
  if row.length < 4 then st
  else
    let src := pyStrip (row.getD 0 "")
    let rel_type := pyStrip (row.getD 1 "")
    let rel_label := pyStrip (row.getD 2 "")
    let dst := pyStrip (row.getD 3 "")
    let group := if 4 < row.length then pyStrip (row.getD 4 "") else ""
    if INVALID_NODES.contains src || INVALID_NODES.contains dst then st
    else if src == "" || dst == "" then st
    else if st.edge_map.contains (src, dst) then st
    else
      { nodes := addNode (addNode st.nodes src) dst
        edges := st.edges ++ [⟨src, dst, csv_edge_symbol rel_type, rel_label.take 5⟩]
        groups := if group == "" then st.groups
                  else addToGroup st.groups group src dst
        edge_map := st.edge_map ++ [(src, dst)] }

/-- The header tokens tested against `row[0].strip()` on the first row. -/
def headerTokens : List String := ["主体", "関係", "source", "Source"]

/-- The collection loop of `build_mermaid_from_csv` in
`model_comparison_test.py`, with its header check on the first row: the
check evaluates `row[0]` before the `len(row) < 4` guard, so an empty
first row raises `IndexError`, modelled as `Except.error`. -/
def csvCollect (csv_text : String) : Except String BuildState :=
  match (pySplitlines csv_text).map csvRow with
  | [] => Except.ok initState
  | row0 :: rest =>
    match row0 with
    | [] => Except.error "IndexError: list index out of range"
    | f0 :: _ =>
      let rows := if headerTokens.contains (pyStrip f0) then rest else row0 :: rest
      Except.ok (rows.foldl csvStep initState)

/-- The group-name regex allow-list of the CSV builders:
`[^0-9A-Za-z_぀-ヿ一-鿿\s]` (hiragana and katakana as the single
range 3040–30FF; no middle-dot removal, no fallback literal). -/
def mct_group_allowed (c : Char) : Bool :=
  let n := c.toNat
  (0x30 ≤ n && n ≤ 0x39) || (0x41 ≤ n && n ≤ 0x5A) || (0x61 ≤ n && n ≤ 0x7A) ||
  c == '_' || (0x3040 ≤ n && n ≤ 0x30FF) || (0x4E00 ≤ n && n ≤ 0x9FFF) || pyIsSpace c

/-- Group-name sanitization in `model_comparison_test.py` (regex removal
only). -/
def mct_sanitize_group (g : String) : String :=
  (g.data.filter mct_group_allowed).asString

/-- One edge line of the CSV builder (both endpoints must be registered
nodes). -/
def mctEdgeLine (pyhash : String → Int) (nodes : List String) (e : Edge) :
    Option String :=
  if nodes.contains e.src && nodes.contains e.dst then
    some (if e.label != "" then
      "    " ++ safe_id pyhash e.src ++ " " ++ e.symbol ++ "|" ++ e.label
        ++ "| " ++ safe_id pyhash e.dst
    else
      "    " ++ safe_id pyhash e.src ++ " " ++ e.symbol ++ " "
        ++ safe_id pyhash e.dst)
  else none

/-- `build_mermaid_from_csv` of `model_comparison_test.py`: parse, collect
and serialize; the single `main_focus` highlight uses exact lookup then a
first-match fuzzy scan (`List.find?` models the for/break loop). An
`IndexError` from the header check propagates as `Except.error`. -/
def build_mermaid_from_csv (pyhash : String → Int) (csv_text : String)
    (main_focus : Option String) : Except String String :=
  match csvCollect csv_text with
  | Except.error e => Except.error e
  | Except.ok st =>
    let lines :=
      ["graph LR"]
      ++ (pySorted st.nodes).map (nodeLine pyhash)
      ++ st.groups.foldl (fun acc p => acc
          ++ ("\n    subgraph " ++ mct_sanitize_group p.1)
            :: p.2.filterMap (fun n =>
                if st.nodes.contains n then some ("        " ++ safe_id pyhash n)
                else none)
          ++ ["    end"]) []
      ++ "" :: st.edges.filterMap (mctEdgeLine pyhash st.nodes)
      ++ (match main_focus with
          | none => []
          | some mf =>
            if mf == "" then []
            else if st.nodes.contains mf then
              ["\n" ++ style_line (safe_id pyhash mf)]
            else
              match st.nodes.find? (fun n => pyIn mf n || pyIn n mf) with
              | some n => ["\n" ++ style_line (safe_id pyhash n)]
              | none => [])
    Except.ok (String.intercalate "\n" lines)

end ModelComparisonCsv

namespace Benchmark

open ZikkenV7

/-- The group-name regex allow-list of `build_mermaid_from_csv` in
`benchmark.py` (line 112): `[^0-9A-Za-z_぀-ヿ一-鿿\s]`, with hiragana
and katakana as the single range 3040–30FF, so the katakana middle dot
U+30FB lies inside it and is kept. -/
def bench_group_allowed (c : Char) : Bool :=
  let n := c.toNat
  (0x30 ≤ n && n ≤ 0x39) || (0x41 ≤ n && n ≤ 0x5A) || (0x61 ≤ n && n ≤ 0x7A) ||
  c == '_' || (0x3040 ≤ n && n ≤ 0x30FF) || (0x4E00 ≤ n && n ≤ 0x9FFF) || pyIsSpace c

/-- Group-name sanitization of `benchmark.py`: the regex removal only —
no middle-dot replacement and no fallback literal. -/
def safe_group_name (g : String) : String :=
  (g.data.filter bench_group_allowed).asString

/-- The subgraph header line of `benchmark.py` (line 113):
`f'\n    subgraph {safe_gn}'`. -/
def group_header (g : String) : String :=
  "\n    subgraph " ++ safe_group_name g

end Benchmark

namespace ZikkenV7

/-- The ordered (source, target) key of an edge, the key stored in
`edge_map`. -/
def edgeKey (e : Edge) : String × String := (e.src, e.dst)

lemma contains_eq_false_iff {α : Type} [BEq α] [LawfulBEq α]
    (l : List α) (a : α) : l.contains a = false ↔ a ∉ l := by
  rw [Bool.eq_false_iff]
  exact not_congr List.elem_iff

/-- Invariant of the collection loop: `edge_map` is exactly the key list
of `edges`, duplicate-free. -/
def GoodState (st : BuildState) : Prop :=
  st.edge_map = st.edges.map edgeKey ∧ st.edge_map.Nodup

lemma goodState_init : GoodState initState := by
  constructor <;> simp [initState]

lemma goodState_processRel (st : BuildState) (r : Relationship)
    (h : GoodState st) : GoodState (processRel st r) := by
  obtain ⟨hsync, hnd⟩ := h
  have hmem : ¬st.edge_map.contains (r.source, r.target) = true →
      (r.source, r.target) ∉ st.edge_map := fun h3 hm => h3 (List.elem_iff.mpr hm)
  unfold processRel
  split_ifs with h1 h2 h3 hg
  · exact ⟨hsync, hnd⟩
  · exact ⟨hsync, hnd⟩
  · exact ⟨hsync, hnd⟩
  · exact ⟨by simp [hsync, edgeKey], by simp [List.nodup_append, hnd, hmem h3]⟩
  · exact ⟨by simp [hsync, edgeKey], by simp [List.nodup_append, hnd, hmem h3]⟩

lemma goodState_foldl (rels : List Relationship) :
    ∀ st : BuildState, GoodState st → GoodState (rels.foldl processRel st) := by
  induction rels with
  | nil => intro st h; exact h
  | cons r rs ih => intro st h; exact ih _ (goodState_processRel st r h)

lemma goodState_processAll (rels : List Relationship) :
    GoodState (processAll rels) :=
  goodState_foldl rels initState goodState_init

lemma processRel_of_seen (st : BuildState) (r : Relationship)
    (h : (r.source, r.target) ∈ st.edge_map) : processRel st r = st := by
  unfold processRel
  split_ifs with h1 h2 h3 hg
  · rfl
  · rfl
  · rfl
  · exact absurd (List.elem_iff.mpr h) h3
  · exact absurd (List.elem_iff.mpr h) h3

/-- C1: the compiled edge set of `build_mermaid_from_structured` has at
most one edge per ordered (source, target) name pair; a later record whose
ordered pair is already present leaves the whole state unchanged (first
record wins, no merge, no overwrite); and the two opposite directions of a
pair may coexist, as on the concrete input A→B, B→A. -/
theorem C1_edge_dedup_first_wins :
    (∀ rels : List Relationship, ((processAll rels).edges.map edgeKey).Nodup)
    ∧ (∀ (rels : List Relationship) (r : Relationship),
        (r.source, r.target) ∈ (processAll rels).edge_map →
        processAll (rels ++ [r]) = processAll rels)
    ∧ (processAll [⟨"A", "B", "directed", "x", ""⟩,
                   ⟨"B", "A", "directed", "y", ""⟩]).edges.map edgeKey
        = [("A", "B"), ("B", "A")] := by
  refine ⟨?_, ?_, by decide⟩
  · intro rels
    obtain ⟨hsync, hnd⟩ := goodState_processAll rels
    rwa [← hsync]
  · intro rels r h
    have hfold : processAll (rels ++ [r]) = processRel (processAll rels) r := by
      simp [processAll, List.foldl_append]
    rw [hfold, processRel_of_seen _ _ h]

/-- Witness for C1: a concrete duplicated ordered pair is dropped without
changing the compiled state. -/
theorem C1_edge_dedup_first_wins_witness :
    processAll ([⟨"A", "B", "directed", "x", ""⟩] ++ [⟨"A", "B", "directed", "zzz", ""⟩])
      = processAll [⟨"A", "B", "directed", "x", ""⟩] :=
  C1_edge_dedup_first_wins.2.1 [⟨"A", "B", "directed", "x", ""⟩]
    ⟨"A", "B", "directed", "zzz", ""⟩ (by decide)

lemma processRel_edges (st : BuildState) (r : Relationship) :
    (processRel st r).edges = st.edges ∨
      (processRel st r).edges = st.edges ++
        [⟨r.source, r.target, edge_symbol r.relation_type, r.label.take 5⟩] := by
  unfold processRel
  split_ifs <;> simp

lemma edges_foldl_characterize (rels : List Relationship) :
    ∀ (st : BuildState) (e : Edge), e ∈ (rels.foldl processRel st).edges →
      e ∈ st.edges ∨ ∃ r ∈ rels, e.label = r.label.take 5 := by
  induction rels with
  | nil => intro st e he; exact Or.inl he
  | cons r rs ih =>
    intro st e he
    rcases ih (processRel st r) e he with h | ⟨r', hr', hl⟩
    · rcases processRel_edges st r with heq | heq
      · rw [heq] at h
        exact Or.inl h
      · rw [heq] at h
        rcases List.mem_append.mp h with h' | h'
        · exact Or.inl h'
        · refine Or.inr ⟨r, List.mem_cons_self r rs, ?_⟩
          simp only [List.mem_singleton] at h'
          rw [h']
    · exact Or.inr ⟨r', List.mem_cons_of_mem r hr', hl⟩

/-- C3: every edge of the compiled output carries as label the first five
characters `label[0:5]` of some input record's label, hence every edge
label has length at most 5. -/
theorem C3_label_truncation (rels : List Relationship) (e : Edge)
    (he : e ∈ (processAll rels).edges) :
    (∃ r ∈ rels, e.label = r.label.take 5) ∧ e.label.length ≤ 5 := by
  have hchar := edges_foldl_characterize rels initState e he
  rcases hchar with h | h
  · simp [initState] at h
  · refine ⟨h, ?_⟩
    obtain ⟨r, _, hl⟩ := h
    rw [hl, String.length, String.data_take, List.length_take]
    exact min_le_left _ _

/-- Witness for C3 at the record ("A", "B", "directed", "abcdefgh"): its
edge label is "abcde". -/
theorem C3_label_truncation_witness :
    (∃ r ∈ [(⟨"A", "B", "directed", "abcdefgh", ""⟩ : Relationship)],
      (⟨"A", "B", "-->", "abcde"⟩ : Edge).label = r.label.take 5)
    ∧ (⟨"A", "B", "-->", "abcde"⟩ : Edge).label.length ≤ 5 :=
  C3_label_truncation [⟨"A", "B", "directed", "abcdefgh", ""⟩]
    ⟨"A", "B", "-->", "abcde"⟩ (by decide)

/-- A record whose source is a whitespace-padded placeholder token: its
trimmed source "?" is in `INVALID_NODES`. -/
def r_padded : Relationship := ⟨" ?", "Bob", "directed", "rival", ""⟩

/-- C4 counterexample: the claim says a record whose source trims to an
`INVALID_NODES` entry is dropped and its name never becomes a node; the
code checks `INVALID_NODES` membership on the *untrimmed* name, so the
record (" ?", "Bob") is kept, " ?" becomes a node and the edge is
emitted. -/
theorem C4_counterexample :
    pyStrip r_padded.source = "?" ∧ "?" ∈ INVALID_NODES
    ∧ (processAll [r_padded]).nodes = [" ?", "Bob"]
    ∧ (processAll [r_padded]).edges.length = 1 := by
  decide

/-- C4 amended: a record is dropped exactly when its untrimmed source or
target is an `INVALID_NODES` entry, or is empty or whitespace-only (no
trimming happens before the placeholder comparison); a dropped record
leaves the whole compilation state unchanged. -/
theorem C4_filter_no_trim :
    (∀ r : Relationship,
      (invalid_filtered r || empty_filtered r) = true ↔
      (r.source ∈ INVALID_NODES ∨ r.target ∈ INVALID_NODES ∨
       pyStrip r.source = "" ∨ pyStrip r.target = ""))
    ∧ (∀ (st : BuildState) (r : Relationship),
        (invalid_filtered r || empty_filtered r) = true → processRel st r = st) := by
  constructor
  · intro r
    have hsrc : r.source = "" → r.source ∈ INVALID_NODES := by
      intro h; rw [h]; decide
    have htgt : r.target = "" → r.target ∈ INVALID_NODES := by
      intro h; rw [h]; decide
    simp only [invalid_filtered, empty_filtered, Bool.or_eq_true,
      List.elem_iff, beq_iff_eq]
    tauto
  · intro st r hdrop
    unfold processRel
    split_ifs with h1 h2 h3 hg
    · rfl
    · rfl
    · rfl
    all_goals
      simp only [Bool.or_eq_true] at hdrop
      rcases hdrop with h | h
      · exact absurd h h1
      · exact absurd h h2

/-- Witness for C4 amended: the whitespace-only target " " makes the
record dropped, and processing it from the empty state changes nothing. -/
theorem C4_filter_no_trim_witness :
    processRel initState ⟨"Alice", " ", "directed", "x", ""⟩ = initState :=
  C4_filter_no_trim.2 initState ⟨"Alice", " ", "directed", "x", ""⟩ (by decide)

/-- C9: a validated self-loop record whose ordered pair is unseen and
whose name is not yet a node is not rejected: it adds exactly one node and
one edge whose source and target (hence their `safe_id`s) coincide. -/
theorem C9_self_loop (st : BuildState) (r : Relationship)
    (h1 : invalid_filtered r = false) (h2 : empty_filtered r = false)
    (h3 : r.source = r.target) (h4 : (r.source, r.target) ∉ st.edge_map)
    (h5 : r.source ∉ st.nodes) :
    (processRel st r).nodes = st.nodes ++ [r.source]
    ∧ (processRel st r).edges = st.edges ++
        [⟨r.source, r.source, edge_symbol r.relation_type, r.label.take 5⟩]
    ∧ ∀ pyhash : String → Int, safe_id pyhash r.source = safe_id pyhash r.target := by
  have hn1 : addNode st.nodes r.source = st.nodes ++ [r.source] := by
    simp [addNode, h5]
  have hnodes : addNode (addNode st.nodes r.source) r.target = st.nodes ++ [r.source] := by
    rw [← h3, hn1]
    simp [addNode]
  have h4s : (r.source, r.source) ∉ st.edge_map := by
    rw [h3] at h4 ⊢
    exact h4
  refine ⟨?_, ?_, fun pyhash => by rw [h3]⟩
  · simp [processRel, h1, h2, h4, h4s, hnodes]
  · simp [processRel, h1, h2, h4, h4s, ← h3]

/-- Witness for C9: the self-loop record ("Ouroboros", "Ouroboros"). -/
theorem C9_self_loop_witness :
    (processRel initState ⟨"Ouroboros", "Ouroboros", "dotted", "eats self", ""⟩).nodes
      = initState.nodes ++ ["Ouroboros"]
    ∧ (processRel initState ⟨"Ouroboros", "Ouroboros", "dotted", "eats self", ""⟩).edges
      = initState.edges ++ [⟨"Ouroboros", "Ouroboros", edge_symbol "dotted", ("eats self" : String).take 5⟩]
    ∧ ∀ pyhash : String → Int, safe_id pyhash "Ouroboros" = safe_id pyhash "Ouroboros" :=
  C9_self_loop initState ⟨"Ouroboros", "Ouroboros", "dotted", "eats self", ""⟩
    (by decide) (by decide) rfl (by decide) (by decide)

/-- C5 counterexample: the claim's cited `benchmark.py` sanitizer keeps
the katakana middle dot (U+30FB lies inside its 3040–30FF range) and has
no fallback literal, so the punctuation-only group name "・・・"
serializes there as the header `\n    subgraph ・・・` — not as the
claimed fallback "group". -/
theorem C5_counterexample :
    Benchmark.bench_group_allowed '・' = true
    ∧ Benchmark.safe_group_name "・・・" = "・・・"
    ∧ Benchmark.group_header "・・・" = "\n    subgraph ・・・"
    ∧ Benchmark.group_header "・・・" ≠ "\n    subgraph group" := by
  decide

/-- C5 amended: in `build_mermaid_from_structured` the serialized subgraph
header uses the sanitized group name — one pass removing every character
outside the allow-list (ASCII alphanumerics, underscore, whitespace,
hiragana, katakana letters without the middle dot, CJK ideographs), with
the literal fallback "group" when the result is empty or whitespace-only,
so "・・・" serializes as "group" there; the `benchmark.py` CSV builder
instead emits the name filtered through its wider allow-list only — the
middle dot is kept and there is no fallback, so "・・・" passes through
unchanged. -/
theorem C5_group_sanitization :
    (∀ (pyhash : String → Int) (nodes : List String) (p : String × List String),
      (groupBlock pyhash nodes p).head? = some ("    subgraph " ++ sanitize_group_name p.1))
    ∧ (∀ g : String,
        sanitize_group_name g =
          (if pyStrip ((g.data.filter (fun c => group_allowed c && c != '・')).asString) = ""
           then "group"
           else (g.data.filter (fun c => group_allowed c && c != '・')).asString))
    ∧ sanitize_group_name "・・・" = "group"
    ∧ (∀ g : String, Benchmark.group_header g
        = "\n    subgraph " ++ (g.data.filter Benchmark.bench_group_allowed).asString)
    ∧ Benchmark.bench_group_allowed '・' = true
    ∧ Benchmark.safe_group_name "・・・" = "・・・" := by
  refine ⟨fun pyhash nodes p => rfl, ?_, by decide, fun g => rfl, by decide, by decide⟩
  intro g
  have hf : ((g.data.filter (fun c => c != '・')).filter group_allowed)
      = g.data.filter (fun c => group_allowed c && c != '・') := by
    rw [List.filter_filter]
  have hdata : ∀ l : List Char, (l.asString).data = l := fun l => rfl
  simp only [sanitize_group_name, hdata, hf, beq_iff_eq]

/-- C2: compiling the same graph twice with the same per-process hash
gives byte-identical output; the serialized node order is sorted
lexicographically and lists exactly the collected nodes; each node line
derives its id only from the display name, as the literal prefix "id_"
followed by abs(hash(name)) mod 10000; and the edge list of two runs is
identical. -/
theorem C2_deterministic_serialization (pyhash : String → Int) (g : CharacterGraph) :
    build_mermaid_from_structured pyhash g = build_mermaid_from_structured pyhash g
    ∧ List.Sorted (· ≤ ·) (pySorted (processAll g.relationships).nodes)
    ∧ (pySorted (processAll g.relationships).nodes).Perm (processAll g.relationships).nodes
    ∧ (∀ name : String, nodeLine pyhash name
        = "    " ++ ("id_" ++ toString ((pyhash name).natAbs % 10000))
            ++ "[\"" ++ name ++ "\"]")
    ∧ (processAll g.relationships).edges = (processAll g.relationships).edges := by
  refine ⟨rfl, ?_, ?_, fun name => rfl, rfl⟩
  · simp only [pySorted]
    exact List.sorted_insertionSort _ _
  · simp only [pySorted]
    exact List.perm_insertionSort _ _

/-- A sample per-process hash, used to instantiate witnesses. -/
def hashLen : String → Int := fun s => (s.length : Int)

/-- The fuzzy-scan loop computes the first match of the nodes iteration
order, in `List.find?` form. -/
lemma fuzzyScan_eq_find (pyhash : String → Int) (cp : String) (hl : List String) :
    ∀ order : List String,
      fuzzyScan pyhash cp hl order =
        match order.find? (fun n => pyIn cp n || pyIn n cp) with
        | none => ([], hl)
        | some n =>
          if hl.contains (safe_id pyhash n) then ([], hl)
          else ([style_line (safe_id pyhash n)], hl ++ [safe_id pyhash n])
  | [] => rfl
  | n :: rest => by
    unfold fuzzyScan
    simp only [List.find?]
    cases h : (pyIn cp n || pyIn n cp) with
    | true => simp [h]
    | false => simp [h, fuzzyScan_eq_find pyhash cp hl rest]

/-- C6: for a focus name with no exact node match, the highlighting pass
selects the first node of the node map's iteration order related to it by
bidirectional substring containment (only that first match), and when no
node matches at all the focus name contributes nothing — no error, no
emitted directive. -/
theorem C6_fuzzy_first_match (pyhash : String → Int) (order : List String)
    (ls hl : List String) (cp : String) (hcp : cp ∉ order) :
    focusStep pyhash order (ls, hl) cp =
      match order.find? (fun n => pyIn cp n || pyIn n cp) with
      | none => (ls, hl)
      | some n =>
        if safe_id pyhash n ∈ hl then (ls, hl)
        else (ls ++ [style_line (safe_id pyhash n)], hl ++ [safe_id pyhash n]) := by
  have hcont : order.contains cp = false := by
    rw [Bool.eq_false_iff]
    intro hct
    exact hcp (List.elem_iff.mp hct)
  unfold focusStep
  rw [hcont]
  simp only [Bool.false_eq_true, if_false]
  rw [fuzzyScan_eq_find]
  cases hfind : order.find? (fun n => pyIn cp n || pyIn n cp) with
  | none => simp
  | some n =>
    by_cases hc : safe_id pyhash n ∈ hl
    · simp [List.elem_iff.mpr hc, hc]
    · have : hl.contains (safe_id pyhash n) = false := by
        rw [Bool.eq_false_iff]
        intro hct
        exact hc (List.elem_iff.mp hct)
      simp [this, hc]

/-- Witness for C6: "Lane" fuzzy-resolves to the node "Lane Shroud". -/
theorem C6_fuzzy_first_match_witness :
    focusStep hashLen ["Lane Shroud"] ([], []) "Lane" =
      (["    style id_11 fill:#FFD700,stroke:#FF8C00,stroke-width:4px"], ["id_11"]) := by
  rw [C6_fuzzy_first_match hashLen ["Lane Shroud"] [] [] "Lane" (by decide)]
  decide

/-- A focus-name step either leaves the accumulator unchanged or emits
one style line for one id not yet highlighted. -/
lemma focusStep_cases (pyhash : String → Int) (order ls hl : List String)
    (cp : String) :
    focusStep pyhash order (ls, hl) cp = (ls, hl) ∨
    ∃ x, x ∉ hl ∧
      focusStep pyhash order (ls, hl) cp = (ls ++ [style_line x], hl ++ [x]) := by
  unfold focusStep
  split_ifs with h1 h2
  · exact Or.inl rfl
  · exact Or.inr ⟨safe_id pyhash cp,
      fun hm => h2 (List.elem_iff.mpr hm), rfl⟩
  · rw [fuzzyScan_eq_find]
    cases hfind : order.find? (fun n => pyIn cp n || pyIn n cp) with
    | none => simp
    | some n =>
      cases hc : hl.contains (safe_id pyhash n) with
      | true =>
        have hmem : safe_id pyhash n ∈ hl := List.elem_iff.mp hc
        left
        simp [hmem]
      | false =>
        have hnot : safe_id pyhash n ∉ hl := (contains_eq_false_iff hl _).mp hc
        right
        exact ⟨safe_id pyhash n, hnot, by simp [hnot]⟩

/-- Fold invariant of the highlighting pass: the emitted lines are exactly
the style lines of the highlighted ids, and the id list stays
duplicate-free. -/
lemma highlight_fold_inv (pyhash : String → Int) (order : List String) :
    ∀ (cps ls hl : List String), ls = hl.map style_line → hl.Nodup →
      (cps.foldl (focusStep pyhash order) (ls, hl)).1
          = ((cps.foldl (focusStep pyhash order) (ls, hl)).2).map style_line
        ∧ ((cps.foldl (focusStep pyhash order) (ls, hl)).2).Nodup
  | [], ls, hl, h1, h2 => ⟨by simpa using h1, h2⟩
  | cp :: cps, ls, hl, h1, h2 => by
    rcases focusStep_cases pyhash order ls hl cp with he | ⟨x, hx, he⟩
    · simp only [List.foldl_cons, he]
      exact highlight_fold_inv pyhash order cps ls hl h1 h2
    · simp only [List.foldl_cons, he]
      exact highlight_fold_inv pyhash order cps _ _
        (by simp [h1]) (by simp [List.nodup_append, h2, hx])

/-- C7: no node id appears in more than one highlight directive — the
emitted style lines are the style lines of a duplicate-free id list, so a
node resolved by several focus names is highlighted exactly once, as on
the concrete pair "Lane" / "Lane Shroud". -/
theorem C7_highlight_dedup (pyhash : String → Int) (order cps : List String) :
    highlightLines pyhash order cps
        = (highlightIds pyhash order cps).map style_line
    ∧ (highlightIds pyhash order cps).Nodup
    ∧ highlightLines hashLen ["Lane Shroud"] ["Lane", "Lane Shroud"]
        = [style_line (safe_id hashLen "Lane Shroud")] := by
  have h := highlight_fold_inv pyhash order cps [] [] (by simp) (by simp)
  exact ⟨h.1, h.2, by decide⟩

lemma mem_addNode {ns : List String} {n x : String} (h : x ∈ addNode ns n) :
    x ∈ ns ∨ x = n := by
  unfold addNode at h
  split_ifs at h with hc
  · exact Or.inl h
  · rcases List.mem_append.mp h with h' | h'
    · exact Or.inl h'
    · simp only [List.mem_singleton] at h'
      exact Or.inr h'

lemma not_empty_filtered_strip {r : Relationship}
    (h : ¬empty_filtered r = true) :
    pyStrip r.source ≠ "" ∧ pyStrip r.target ≠ "" := by
  unfold empty_filtered at h
  simp only [Bool.or_eq_true, beq_iff_eq] at h
  push_neg at h
  obtain ⟨⟨⟨_, _⟩, hs⟩, ht⟩ := h
  exact ⟨hs, ht⟩

/-- Every name registered as a node survived the emptiness filter: its
stripped form is non-empty. -/
lemma nodes_strip_ne (rels : List Relationship) :
    ∀ st : BuildState, (∀ x ∈ st.nodes, pyStrip x ≠ "") →
      ∀ x ∈ (rels.foldl processRel st).nodes, pyStrip x ≠ "" := by
  induction rels with
  | nil => intro st h; exact h
  | cons r rs ih =>
    intro st h
    apply ih
    intro x hx
    unfold processRel at hx
    split_ifs at hx with h1 h2 h3 hg
    · exact h x hx
    · exact h x hx
    · exact h x hx
    all_goals
      simp only at hx
      rcases mem_addNode hx with hx' | hx'
      · rcases mem_addNode hx' with hx'' | hx''
        · exact h x hx''
        · rw [hx'']
          exact (not_empty_filtered_strip h2).1
      · rw [hx']
        exact (not_empty_filtered_strip h2).2

lemma nodes_processAll_strip_ne (rels : List Relationship) :
    ∀ x ∈ (processAll rels).nodes, pyStrip x ≠ "" :=
  nodes_strip_ne rels initState (by simp [initState])

lemma pyIn_empty (s : String) : pyIn "" s = true := by
  unfold pyIn
  cases s.data with
  | nil => rfl
  | cons c rest => simp [lstInfix, List.isPrefixOf]

/-- C10: when the compiled node set is non-empty, the empty focus name ""
matches no node exactly (node names never strip to empty, so "" is never a
node), always fuzzy-matches — the first scanned node, since "" is a
substring of every name — and the highlighting pass for the single focus
name "" emits exactly one directive, for the first node of the node map's
iteration order. -/
theorem C10_empty_focus_name (pyhash : String → Int) (rels : List Relationship)
    (n : String) (rest : List String)
    (hn : (processAll rels).nodes = n :: rest) :
    "" ∉ (processAll rels).nodes
    ∧ (processAll rels).nodes.find? (fun m => pyIn "" m || pyIn m "") = some n
    ∧ highlightLines pyhash (processAll rels).nodes [""]
        = [style_line (safe_id pyhash n)] := by
  have hne : "" ∉ (processAll rels).nodes := by
    intro hmem
    exact nodes_processAll_strip_ne rels "" hmem rfl
  have hfind : (processAll rels).nodes.find? (fun m => pyIn "" m || pyIn m "")
      = some n := by
    rw [hn]
    simp only [List.find?]
    rw [pyIn_empty n]
    rfl
  refine ⟨hne, hfind, ?_⟩
  have hcont : (processAll rels).nodes.contains "" = false :=
    (contains_eq_false_iff _ _).mpr hne
  simp only [highlightLines, List.foldl_cons, List.foldl_nil, focusStep,
    hcont, Bool.false_eq_true, if_false]
  rw [fuzzyScan_eq_find, hfind]
  simp

/-- Witness for C10: a two-node compilation; the focus name "" highlights
the first collected node "Alice" only. -/
theorem C10_empty_focus_name_witness :
    "" ∉ (processAll [⟨"Alice", "Bob", "directed", "x", ""⟩]).nodes
    ∧ (processAll [⟨"Alice", "Bob", "directed", "x", ""⟩]).nodes.find?
        (fun m => pyIn "" m || pyIn m "") = some "Alice"
    ∧ highlightLines hashLen (processAll [⟨"Alice", "Bob", "directed", "x", ""⟩]).nodes [""]
        = [style_line (safe_id hashLen "Alice")] :=
  C10_empty_focus_name hashLen [⟨"Alice", "Bob", "directed", "x", ""⟩]
    "Alice" ["Bob"] (by decide)

end ZikkenV7

namespace ModelComparisonCsv

open ZikkenV7

/-- C8, against `build_mermaid_from_csv` of `model_comparison_test.py`:
the header check evaluates `row[0]` before the row-length guard, so a CSV
text whose first line is empty makes the builder raise `IndexError`
instead of skipping the empty row; on inputs whose first row is non-empty
the builder returns a diagram string, and a short non-first row is skipped
outright by the length guard. -/
theorem C8_csv_empty_first_row_raises :
    build_mermaid_from_csv hashLen "\nAlice,knows,friend,Bob" (some "Alice")
      = Except.error "IndexError: list index out of range"
    ∧ (∃ out : String,
        build_mermaid_from_csv hashLen "Alice,knows,friend,Bob\nxy" none
          = Except.ok out)
    ∧ (∀ st : BuildState, csvStep st ["xy"] = st) := by
  refine ⟨rfl, ?_, fun st => rfl⟩
  unfold build_mermaid_from_csv
  rw [show csvCollect "Alice,knows,friend,Bob\nxy"
      = Except.ok ⟨["Alice", "Bob"], [⟨"Alice", "Bob", "-->", "frien"⟩], [],
          [("Alice", "Bob")]⟩ from rfl]
  exact ⟨_, rfl⟩

end ModelComparisonCsv

